import Mathlib

/-!
Verification of the pyglossary conversion-pipeline core
(`pyglossary/glossary.py`) against its natural-language specification.

The Python code is shallowly embedded: the glossary instance state becomes an
explicit record, generators become lists, exceptions become an explicit error
result, and the external collaborators that the spec excludes (file system,
subprocesses, plugin module import) are abstracted as parameters.  Entries are
an abstract type `α`; sort keys map entries into a linear order `κ`.
-/

namespace PyGlossary

/-! ### Streaming sort-merge engine

`pyglossary/sort_stream.py` (function `hsortStreamList`) is not part of the
sources provided; only its call site in `Glossary._updateIter` is.  The
engine is therefore modelled from the spec (section 4.5): the stream of each
reader is partitioned into runs of at most `C` entries, each run is sorted
in memory by the key, and the sorted runs are merged, the lowest key first
and ties broken by input arrival order.  Arrival order is made explicit by
tagging every entry with its global arrival index, so that the merge
comparison `keyLE` is total and without ties.
-/

variable {α : Type} {κ : Type} [LinearOrder κ]

/-- Fuel-indexed chunking; the fuel only forces structural recursion and is
always supplied large enough to be irrelevant. -/
def chunksFuel (C : Nat) : Nat → List α → List (List α)
  | _, [] => []
  | 0, l => [l]
  | fuel + 1, x :: xs => (x :: xs.take (C - 1)) :: chunksFuel C fuel (xs.drop (C - 1))

/-- Partition a list into consecutive chunks (runs) of at most `C` elements;
for `C = 0` the behaviour coincides with `C = 1` (the call sites keep the
cache size positive). -/
def chunks (C : Nat) (l : List α) : List (List α) :=
  chunksFuel C l.length l

/-- Tag the elements of a list with consecutive arrival indices starting
at `n`. -/
def tagFrom (n : Nat) : List α → List (Nat × α)
  | [] => []
  | a :: l => (n, a) :: tagFrom (n + 1) l

/-- Tag the entries of every stream with global arrival indices (streams are
drained in attachment order) and partition each stream into runs of at
most `C` tagged entries. -/
def taggedRuns (C : Nat) : Nat → List (List α) → List (List (Nat × α))
  | _, [] => []
  | n, s :: ss => chunks C (tagFrom n s) ++ taggedRuns C (n + s.length) ss

/-- The merge comparison: by key first, ties broken by arrival index. -/
def keyLE (key : α → κ) (p q : Nat × α) : Prop :=
  key p.2 < key q.2 ∨ (key p.2 = key q.2 ∧ p.1 ≤ q.1)

instance (key : α → κ) : DecidableRel (keyLE key) := fun p q => by
  unfold keyLE
  exact inferInstance

instance (key : α → κ) : IsTotal (Nat × α) (keyLE key) where
  total p q := by
    rcases lt_trichotomy (key p.2) (key q.2) with h | h | h
    · exact Or.inl (Or.inl h)
    · rcases Nat.le_total p.1 q.1 with h1 | h1
      · exact Or.inl (Or.inr ⟨h, h1⟩)
      · exact Or.inr (Or.inr ⟨h.symm, h1⟩)
    · exact Or.inr (Or.inl h)

instance (key : α → κ) : IsTrans (Nat × α) (keyLE key) where
  trans p q s hpq hqs := by
    rcases hpq with h1 | ⟨h1, h1i⟩ <;> rcases hqs with h2 | ⟨h2, h2i⟩
    · exact Or.inl (h1.trans h2)
    · exact Or.inl (h2 ▸ h1)
    · exact Or.inl (h1 ▸ h2)
    · exact Or.inr ⟨h1.trans h2, h1i.trans h2i⟩

/-- Fuel-indexed two-way merge; the fuel only forces structural recursion
and is always supplied large enough to be irrelevant. -/
def merge2Fuel (r : β → β → Prop) [DecidableRel r] :
    Nat → List β → List β → List β
  | _, [], ys => ys
  | _, x :: xs, [] => x :: xs
  | 0, x :: xs, y :: ys => x :: xs ++ y :: ys
  | fuel + 1, x :: xs, y :: ys =>
    if r x y then x :: merge2Fuel r fuel xs (y :: ys)
    else y :: merge2Fuel r fuel (x :: xs) ys

/-- Merge two lists, taking the smaller head first; on a tie the left
(earlier-arrival) head is taken, which keeps the merge stable. -/
def merge2 (r : β → β → Prop) [DecidableRel r] (xs ys : List β) : List β :=
  merge2Fuel r (xs.length + ys.length) xs ys

/-- Fan-in merge of all spilled runs. -/
def mergeAll (r : β → β → Prop) [DecidableRel r] : List (List β) → List β
  | [] => []
  | run :: runs => merge2 r run (mergeAll r runs)

/-- The merged sequence of all sorted runs, still carrying arrival tags. -/
def taggedMerge (streams : List (List α)) (C : Nat) (key : α → κ) :
    List (Nat × α) :=
  mergeAll (keyLE key)
    ((taggedRuns C 0 streams).map (List.insertionSort (keyLE key)))

/-- Modelled from the spec: the streaming sort-merge engine
`hsortStreamList` of `pyglossary/sort_stream.py`, which is not among the
provided sources.  Per spec section 4.5: partition the stream of each reader into
runs of up to `C` entries, sort each run in memory by the key, then merge
all runs, emitting the lowest key first with ties broken by input arrival
order. -/
def hsortStreamList (streams : List (List α)) (C : Nat) (key : α → κ) :
    List α :=
  (taggedMerge streams C key).map Prod.snd

theorem chunksFuel_join (C : Nat) :
    ∀ (fuel : Nat) (l : List α), l.length ≤ fuel →
      (chunksFuel C fuel l).flatten = l
  | fuel, [], _ => by cases fuel <;> simp [chunksFuel]
  | 0, x :: xs, h => absurd h (by simp)
  | fuel + 1, x :: xs, h => by
    rw [chunksFuel, List.flatten_cons,
      chunksFuel_join C fuel (xs.drop (C - 1))
        (by simp only [List.length_drop]; simp at h; omega)]
    simp [List.take_append_drop]

theorem chunks_join (C : Nat) (l : List α) : (chunks C l).flatten = l :=
  chunksFuel_join C l.length l le_rfl

theorem tagFrom_append :
    ∀ (l₁ : List α) (n : Nat) (l₂ : List α),
      tagFrom n (l₁ ++ l₂) = tagFrom n l₁ ++ tagFrom (n + l₁.length) l₂
  | [], n, l₂ => by simp [tagFrom]
  | a :: t, n, l₂ => by
    show (n, a) :: tagFrom (n + 1) (t ++ l₂) =
      ((n, a) :: tagFrom (n + 1) t) ++ tagFrom (n + (a :: t).length) l₂
    rw [List.cons_append, tagFrom_append t (n + 1) l₂]
    have h : n + 1 + t.length = n + (a :: t).length := by
      simp only [List.length_cons]
      omega
    rw [h]

theorem map_snd_tagFrom : ∀ (n : Nat) (l : List α),
    (tagFrom n l).map Prod.snd = l
  | _, [] => rfl
  | n, a :: l => by rw [tagFrom, List.map_cons, map_snd_tagFrom (n + 1) l]

theorem le_of_mem_map_fst_tagFrom :
    ∀ {n : Nat} {l : List α} {m : Nat},
      m ∈ (tagFrom n l).map Prod.fst → n ≤ m
  | _, [], _, h => by simp [tagFrom] at h
  | n, a :: l, m, h => by
    rw [tagFrom, List.map_cons, List.mem_cons] at h
    rcases h with h | h
    · omega
    · have := le_of_mem_map_fst_tagFrom h
      omega

theorem nodup_map_fst_tagFrom :
    ∀ (n : Nat) (l : List α), ((tagFrom n l).map Prod.fst).Nodup
  | _, [] => List.nodup_nil
  | n, a :: l => by
    rw [tagFrom, List.map_cons, List.nodup_cons]
    refine ⟨fun h => ?_, nodup_map_fst_tagFrom (n + 1) l⟩
    have := le_of_mem_map_fst_tagFrom h
    omega

theorem taggedRuns_join (C : Nat) :
    ∀ (n : Nat) (ss : List (List α)),
      (taggedRuns C n ss).flatten = tagFrom n ss.flatten
  | _, [] => rfl
  | n, s :: ss => by
    rw [taggedRuns, List.flatten_append, chunks_join,
      taggedRuns_join C (n + s.length) ss, List.flatten_cons, tagFrom_append]

theorem merge2Fuel_perm {β : Type} (r : β → β → Prop) [DecidableRel r] :
    ∀ (fuel : Nat) (xs ys : List β), (merge2Fuel r fuel xs ys).Perm (xs ++ ys)
  | fuel, [], ys => by cases fuel <;> simp [merge2Fuel]
  | fuel, x :: xs, [] => by cases fuel <;> simp [merge2Fuel]
  | 0, x :: xs, y :: ys => by simp [merge2Fuel]
  | fuel + 1, x :: xs, y :: ys => by
    rw [merge2Fuel]
    split
    · exact (merge2Fuel_perm r fuel xs (y :: ys)).cons x
    · exact ((merge2Fuel_perm r fuel (x :: xs) ys).cons y).trans
        List.perm_middle.symm

theorem merge2_perm {β : Type} (r : β → β → Prop) [DecidableRel r]
    (xs ys : List β) : (merge2 r xs ys).Perm (xs ++ ys) :=
  merge2Fuel_perm r (xs.length + ys.length) xs ys

theorem merge2Fuel_sorted {β : Type} (r : β → β → Prop) [DecidableRel r]
    [IsTotal β r] [IsTrans β r] :
    ∀ (fuel : Nat) (xs ys : List β), xs.length + ys.length ≤ fuel →
      xs.Sorted r → ys.Sorted r → (merge2Fuel r fuel xs ys).Sorted r
  | fuel, [], ys, _, _, hys => by cases fuel <;> simpa [merge2Fuel] using hys
  | fuel, x :: xs, [], _, hxs, _ => by cases fuel <;> simpa [merge2Fuel] using hxs
  | 0, x :: xs, y :: ys, hf, _, _ => absurd hf (by simp)
  | fuel + 1, x :: xs, y :: ys, hf, hxs, hys => by
    rcases List.sorted_cons.mp hxs with ⟨hx, hxs'⟩
    rcases List.sorted_cons.mp hys with ⟨hy, hys'⟩
    simp only [List.length_cons] at hf
    rw [merge2Fuel]
    split_ifs with h
    · refine List.sorted_cons.mpr ⟨fun b hb => ?_,
        merge2Fuel_sorted r fuel xs (y :: ys) (by simp; omega) hxs' hys⟩
      rcases List.mem_append.mp
          ((merge2Fuel_perm r fuel xs (y :: ys)).mem_iff.mp hb) with hb | hb
      · exact hx b hb
      · rcases List.mem_cons.mp hb with rfl | hb
        · exact h
        · exact Trans.trans h (hy b hb)
    · have hyx : r y x := (total_of r x y).resolve_left h
      refine List.sorted_cons.mpr ⟨fun b hb => ?_,
        merge2Fuel_sorted r fuel (x :: xs) ys (by simp; omega) hxs hys'⟩
      rcases List.mem_append.mp
          ((merge2Fuel_perm r fuel (x :: xs) ys).mem_iff.mp hb) with hb | hb
      · rcases List.mem_cons.mp hb with rfl | hb
        · exact hyx
        · exact Trans.trans hyx (hx b hb)
      · exact hy b hb

theorem merge2_sorted {β : Type} (r : β → β → Prop) [DecidableRel r]
    [IsTotal β r] [IsTrans β r] (xs ys : List β)
    (hxs : xs.Sorted r) (hys : ys.Sorted r) : (merge2 r xs ys).Sorted r :=
  merge2Fuel_sorted r (xs.length + ys.length) xs ys le_rfl hxs hys

theorem mergeAll_perm {β : Type} (r : β → β → Prop) [DecidableRel r] :
    ∀ runs : List (List β), (mergeAll r runs).Perm runs.flatten
  | [] => List.Perm.refl _
  | run :: runs => by
    rw [mergeAll, List.flatten_cons]
    exact (merge2_perm r run (mergeAll r runs)).trans
      ((mergeAll_perm r runs).append_left run)

theorem mergeAll_sorted {β : Type} (r : β → β → Prop) [DecidableRel r]
    [IsTotal β r] [IsTrans β r] :
    ∀ runs : List (List β), (∀ run ∈ runs, run.Sorted r) →
      (mergeAll r runs).Sorted r
  | [], _ => List.sorted_nil
  | run :: runs, h =>
    merge2_sorted r run (mergeAll r runs) (h run (List.mem_cons_self run runs))
      (mergeAll_sorted r runs fun x hx => h x (List.mem_cons_of_mem run hx))

theorem keyLE_antisymm_fst {key : α → κ} {p q : Nat × α}
    (h1 : keyLE key p q) (h2 : keyLE key q p) : p.1 = q.1 := by
  rcases h1 with h1 | ⟨he1, hi1⟩ <;> rcases h2 with h2 | ⟨he2, hi2⟩
  · exact absurd h2 (lt_asymm h1)
  · exact absurd (he2 ▸ h1) (lt_irrefl _)
  · exact absurd (he1 ▸ h2) (lt_irrefl _)
  · exact Nat.le_antisymm hi1 hi2

theorem eq_of_perm_sorted_nodupFst (key : α → κ) :
    ∀ (l₁ l₂ : List (Nat × α)), l₁.Perm l₂ → l₁.Sorted (keyLE key) →
      l₂.Sorted (keyLE key) → (l₁.map Prod.fst).Nodup → l₁ = l₂
  | [], _, p, _, _, _ => (p.symm.eq_nil).symm
  | a :: t₁, [], p, _, _, _ => absurd p.eq_nil (List.cons_ne_nil a t₁)
  | a :: t₁, b :: t₂, p, s₁, s₂, nd => by
    have hab : a = b := by
      have hamem : a ∈ b :: t₂ := p.subset (List.mem_cons_self a t₁)
      have hbmem : b ∈ a :: t₁ := p.symm.subset (List.mem_cons_self b t₂)
      rcases List.mem_cons.mp hbmem with hba | hbt
      · exact hba.symm
      rcases List.mem_cons.mp hamem with hab | hat
      · exact hab
      · exfalso
        have h1 : keyLE key a b := List.rel_of_sorted_cons s₁ b hbt
        have h2 : keyLE key b a := List.rel_of_sorted_cons s₂ a hat
        have hfst : a.1 = b.1 := keyLE_antisymm_fst h1 h2
        rw [List.map_cons, List.nodup_cons] at nd
        exact nd.1 (hfst ▸ List.mem_map_of_mem Prod.fst hbt)
    subst hab
    have ht : t₁ = t₂ := by
      rw [List.map_cons, List.nodup_cons] at nd
      exact eq_of_perm_sorted_nodupFst key t₁ t₂ p.cons_inv
        (List.sorted_cons.mp s₁).2 (List.sorted_cons.mp s₂).2 nd.2
    rw [ht]

theorem join_map_insertionSort_perm {β : Type} (r : β → β → Prop)
    [DecidableRel r] :
    ∀ runs : List (List β),
      ((runs.map (List.insertionSort r)).flatten).Perm runs.flatten
  | [] => List.Perm.refl _
  | run :: runs => by
    rw [List.map_cons, List.flatten_cons, List.flatten_cons]
    exact (List.perm_insertionSort r run).append (join_map_insertionSort_perm r runs)

theorem taggedMerge_perm (streams : List (List α)) (C : Nat) (key : α → κ) :
    (taggedMerge streams C key).Perm (tagFrom 0 streams.flatten) := by
  rw [taggedMerge]
  refine (mergeAll_perm _ _).trans ?_
  refine (join_map_insertionSort_perm _ _).trans ?_
  rw [taggedRuns_join]

theorem taggedMerge_sorted (streams : List (List α)) (C : Nat) (key : α → κ) :
    (taggedMerge streams C key).Sorted (keyLE key) := by
  rw [taggedMerge]
  refine mergeAll_sorted _ _ fun run hrun => ?_
  rcases List.mem_map.mp hrun with ⟨run₀, _, rfl⟩
  exact List.sorted_insertionSort (keyLE key) run₀

theorem taggedMerge_cache_irrelevant (streams : List (List α))
    (C₁ C₂ : Nat) (key : α → κ) :
    taggedMerge streams C₁ key = taggedMerge streams C₂ key := by
  refine eq_of_perm_sorted_nodupFst key _ _
    ((taggedMerge_perm streams C₁ key).trans (taggedMerge_perm streams C₂ key).symm)
    (taggedMerge_sorted streams C₁ key) (taggedMerge_sorted streams C₂ key) ?_
  exact (((taggedMerge_perm streams C₁ key).map Prod.fst).nodup_iff).mpr
    (nodup_map_fst_tagFrom 0 streams.flatten)

/-- The streaming sort-merge output is sorted by the key function. -/
theorem hsortStreamList_sorted (streams : List (List α)) (C : Nat)
    (key : α → κ) :
    (hsortStreamList streams C key).Sorted (fun a b => key a ≤ key b) := by
  rw [hsortStreamList, List.Sorted, List.pairwise_map]
  refine (taggedMerge_sorted streams C key).imp fun h => ?_
  rcases h with h | ⟨h, _⟩
  · exact le_of_lt h
  · exact le_of_eq h

/-- The streaming sort-merge output is a permutation of the union of the
input streams. -/
theorem hsortStreamList_perm (streams : List (List α)) (C : Nat)
    (key : α → κ) :
    (hsortStreamList streams C key).Perm streams.flatten := by
  rw [hsortStreamList]
  refine ((taggedMerge_perm streams C key).map Prod.snd).trans ?_
  rw [map_snd_tagFrom]

/-- The streaming sort-merge output does not depend on the cache size. -/
theorem hsortStreamList_cache_irrelevant (streams : List (List α))
    (C₁ C₂ : Nat) (key : α → κ) :
    hsortStreamList streams C₁ key = hsortStreamList streams C₂ key := by
  rw [hsortStreamList, hsortStreamList, taggedMerge_cache_irrelevant streams C₁ C₂ key]

/-! ### Entry filter chain (`Glossary._applyEntryFiltersGen`)

Entries are opaque values of a type `α` (the `Entry` class itself lives in
`entry.py`, outside the provided sources); a filter stage is a function
`α → Option α`, where `none` models both a Python `None` and any falsy
result (the code only tests truthiness).  An upstream generator element is
an `Option α` because readers may yield falsy elements. -/

/-- The inner loop of `Glossary._applyEntryFiltersGen`: pass one entry
through the stages in order; each stage may rewrite the entry, and a falsy
result discards it, with no later stage run. -/
def runEntryFilters : List (α → Option α) → α → Option α
  | [], e => some e
  | f :: fs, e =>
    match f e with
    | none => none
    | some e2 => runEntryFilters fs e2

/-- `Glossary._applyEntryFiltersGen`: falsy upstream elements are discarded
before stage 1; every surviving entry runs through the stages and is
emitted exactly when no stage discards it (the for-else construct). -/
def applyEntryFiltersGen (filters : List (α → Option α)) :
    List (Option α) → List α
  | [] => []
  | none :: gen => applyEntryFiltersGen filters gen
  | some e :: gen =>
    match runEntryFilters filters e with
    | none => applyEntryFiltersGen filters gen
    | some e2 => e2 :: applyEntryFiltersGen filters gen

/-! ### Glossary info and the alias table -/

/-- ASCII lowercasing of a string (Python `str.lower()`; the info keys and
filenames the claims exercise are ASCII). -/
def strLower (s : String) : String := String.mk (s.data.map Char.toLower)

/-- Modelled from the spec: `text_utils.fixUtf8` is not among the provided
sources; it repairs malformed UTF-8 and is the identity on well-formed
text, which is the only behaviour the info claims exercise. -/
def fixUtf8 (s : String) : String := s

/-- The fixed alias table `Glossary.infoKeysAliasDict`. -/
def infoKeysAliasDict : List (String × String) :=
  [("title", "name"), ("bookname", "name"), ("dbname", "name"),
   ("sourcelang", "sourceLang"), ("inputlang", "sourceLang"),
   ("origlang", "sourceLang"),
   ("targetlang", "targetLang"), ("outputlang", "targetLang"),
   ("destlang", "targetLang"),
   ("license", "copyright")]

/-- The key normalization both `getInfo` and `setInfo` perform: consult the
alias table with the lowercased key; on a miss keep the key as given (it is
not lowercased). -/
def normInfoKey (k : String) : String :=
  match infoKeysAliasDict.lookup (strLower k) with
  | some c => c
  | none => k

/-- Ordered-dictionary assignment (Python `dict` update): overwrite in
place when the key is present, else append. -/
def odictSet : List (String × String) → String → String → List (String × String)
  | [], k, v => [(k, v)]
  | (k0, v0) :: rest, k, v =>
    if k0 = k then (k0, v) :: rest else (k0, v0) :: odictSet rest k v

/-- Ordered-dictionary read with `""` as the default (`self._info.get(key, "")`). -/
def odictGet (d : List (String × String)) (k : String) : String :=
  match d.lookup k with
  | some v => v
  | none => ""

/-- `Glossary.getInfo`. -/
def getInfo (info : List (String × String)) (key : String) : String :=
  odictGet info (normInfoKey key)

/-- `Glossary.setInfo`. -/
def setInfo (info : List (String × String)) (key value : String) :
    List (String × String) :=
  odictSet info (normInfoKey (fixUtf8 key)) (fixUtf8 value)

/-- The storage-key function as the claim words it: the canonical key is
obtained by alias-normalizing the LOWERCASED key (so a key missing from
the alias table would be stored lowercased).  Written from the claim text,
for comparison with `normInfoKey` from the code. -/
def claimInfoStoreKey (k : String) : String :=
  match infoKeysAliasDict.lookup (strLower k) with
  | some c => c
  | none => strLower k

/-! ### Path helpers (`os.path.splitext`, `get_ext`, basename) -/

/-- Index of the last occurrence of `c`, if any. -/
def lastIdxOf (c : Char) (cs : List Char) : Option Nat :=
  (cs.foldl
    (fun (acc : Option Nat × Nat) ch =>
      (if ch = c then some acc.2 else acc.1, acc.2 + 1))
    (none, 0)).1

/-- `os.path.splitext`: split off the extension at the last dot, provided
the dot lies in the basename and some non-dot character of the basename
precedes it (so purely dotted prefixes carry no extension). -/
def splitext (p : String) : String × String :=
  let cs := p.data
  match lastIdxOf '.' cs with
  | none => (p, "")
  | some d =>
    let fi : Nat :=
      match lastIdxOf '/' cs with
      | none => 0
      | some s => s + 1
    if d ≥ fi ∧ ((cs.drop fi).take (d - fi)).any (fun ch => ch ≠ '.') then
      (String.mk (cs.take d), String.mk (cs.drop d))
    else (p, "")

/-- `glossary.get_ext`: the lowercased extension. -/
def get_ext (path : String) : String := strLower (splitext path).2

/-- `os.path.split(p)[1]`: the part after the last slash. -/
def basename (p : String) : String :=
  String.mk ((p.data.reverse.takeWhile (fun c => c ≠ '/')).reverse)

/-! ### Glossary instance state

The mutable fields a `Glossary` instance carries (`clear` lists them all).
Entries are opaque (`α`); sort keys map entries into a linear order `κ`.
A reader, once opened, is modelled by the entry stream it will yield
(readers are lazy, forward-only and closed by the draining code, an effect
on the external reader object).  The raw interchange form of an entry
(`Entry.getRaw` / `Entry.fromRaw`, from the excluded `entry.py`) is a
lossless round-trip, so `_data` also holds values of `α`. -/
structure GState (α κ : Type) where
  info : List (String × String)
  data : List α
  readers : List (List α)
  iter : Option (List α)
  entryFilters : List (α → Option α)
  sortKey : Option (α → κ)
  sortCacheSize : Int
  filename : String
  defaultDefiFormat : String
  progressbar : Bool

/-- The state `Glossary.clear` establishes (also the state after
`__init__`, which calls `clear`). -/
def initGState (α κ : Type) : GState α κ :=
  { info := [], data := [], readers := [], iter := none, entryFilters := [],
    sortKey := none, sortCacheSize := 1000, filename := "",
    defaultDefiFormat := "m", progressbar := true }

/-- `Glossary.clear`: every attached reader is closed (an effect on the
external reader objects) and all instance fields are reset. -/
def GState.clear (_g : GState α κ) : GState α κ := initGState α κ

/-- `Glossary._loadedEntryGen`: entries reconstructed one at a time from
the materialized raw list (never falsy). -/
def GState.loadedEntryGen (g : GState α κ) : List (Option α) :=
  g.data.map some

/-- `Glossary._readersEntryGen`: each attached reader fully drained and
closed, in attachment order. -/
def GState.readersEntryGen (g : GState α κ) : List (Option α) :=
  g.readers.flatten.map some

/-- Modelled from the spec: `Entry.getEntrySortKey` and
`Entry.getRawEntrySortKey` (from the excluded `entry.py`) turn an optional
caller key into a total key, defaulting to the word ordering of the entry,
which the model carries as `wordKey`. -/
def getEntrySortKey (wordKey : α → κ) : Option (α → κ) → α → κ
  | none => wordKey
  | some k => k

/-- `Glossary._updateIter`: rebuild `self._iter` from the current mode
(direct iff readers are attached) and the sort request; every path goes
through the entry-filter chain. -/
def GState.updateIter (wordKey : α → κ) (sort : Bool) (g : GState α κ) :
    GState α κ :=
  if g.readers.isEmpty then
    { g with iter := some (applyEntryFiltersGen g.entryFilters g.loadedEntryGen) }
  else if sort then
    { g with iter := some (applyEntryFiltersGen g.entryFilters
        ((hsortStreamList g.readers g.sortCacheSize.toNat
          (getEntrySortKey wordKey g.sortKey)).map some)) }
  else
    { g with iter := some (applyEntryFiltersGen g.entryFilters g.readersEntryGen) }

/-- `Glossary.sortWords`: in direct mode store the key and (only when
positive) the cache size; in indirect mode stable-sort the materialized
list; then rebuild the iteration with sort enabled. -/
def GState.sortWords (wordKey : α → κ) (key : Option (α → κ))
    (cacheSize : Int) (g : GState α κ) : GState α κ :=
  let g1 :=
    if g.readers.isEmpty then
      { g with data := (List.insertionSort
          (fun a b => getEntrySortKey wordKey key a ≤ getEntrySortKey wordKey key b)
          g.data) }
    else
      { g with
          sortKey := key
          sortCacheSize := if cacheSize > 0 then cacheSize else g.sortCacheSize }
  GState.updateIter wordKey true g1

/-- `Glossary.__iter__`: a blank glossary (no `_iter` built) only logs an
error and iterates as the empty sequence. -/
def GState.iterate (g : GState α κ) : List α :=
  match g.iter with
  | none => []
  | some l => l

/-- `Glossary.loadReader`: drain one (already opened) reader into the
materialized list, skipping falsy entries — readers in the model yield no
falsy entries — then close it. -/
def GState.loadReader (g : GState α κ) (reader : List α) : GState α κ :=
  { g with data := g.data ++ reader }

/-- `Glossary._inactivateDirectMode`: drain every attached reader into the
materialized list, close them, and detach them all. -/
def GState.inactivateDirectMode (g : GState α κ) : GState α κ :=
  { (g.readers.foldl GState.loadReader g) with readers := [] }

theorem loadReader_foldl (readers : List (List α)) :
    ∀ g : GState α κ, readers.foldl GState.loadReader g =
      { g with data := g.data ++ readers.flatten } := by
  induction readers with
  | nil => intro g; simp [GState.loadReader]
  | cons r rs ih =>
      intro g
      rw [List.foldl_cons, ih]
      simp [GState.loadReader]

/-- Draining direct mode appends the entries of every reader, in attachment
order, to the materialized list and detaches all readers; nothing else
changes. -/
theorem inactivateDirectMode_eq (g : GState α κ) :
    g.inactivateDirectMode =
      { g with data := g.data ++ g.readers.flatten, readers := [] } := by
  rw [GState.inactivateDirectMode, loadReader_foldl]

/-! ### Plugin registry and the pipeline boundary

The plugin registry is process-wide class state populated from
`plugins.json` and the plugin modules.  The model keeps the per-format
data the pipeline reads: the ordered `formatsExt` table and, per plugin,
the sort-on-write policy, the optional plugin sort key, and the
recognized option keys (whose presence encodes read/write support, as
`formatsReadOptions` / `formatsWriteOptions` are populated exactly for
supporting plugins). Plugin module import is assumed to succeed for
registered formats. -/

/-- The `sortOnWrite` flags (from the excluded `flags.py`): `ALWAYS`,
`DEFAULT_YES`, `DEFAULT_NO`, `NEVER`. -/
inductive SortOnWrite
  | always
  | defaultYes
  | defaultNo
  | never
deriving DecidableEq, Repr

/-- Exceptions that can cross the modelled boundaries. -/
inductive PyErr
  /-- the `ValueError` of `Glossary.read` on an illegal mode transition
  (named `StateError` in the spec). -/
  | stateErr
  /-- a `KeyError` escaping an unguarded dictionary lookup. -/
  | keyErr
deriving DecidableEq, Repr

/-- Per-format plugin data the pipeline consumes. -/
structure Plugin (α κ : Type) where
  sortOnWrite : SortOnWrite
  sortKey : Option (α → κ)
  readOptions : Option (List String)
  writeOptions : Option (List String)
  hasReaderClass : Bool

/-- The registry: `formatsExt` in registration order, and the per-format
plugin data.  `plugins` keys are the formats `formatsFilename` knows
(`loadPluginByFormat` raises `KeyError` on any other name). -/
structure Registry (α κ : Type) where
  formatsExt : List (String × List String)
  plugins : List (String × Plugin α κ)

/-- External effects `read` performs, abstracted: `abspath`, archive
decompression through external tools (`none` is tool failure), the filter
chain `updateEntryFilters` builds from the UI preferences, the entry
stream a plugin `Reader` yields once opened on a file, and the state
state effect of the one-shot plugin `read` function (indirect load). -/
structure ReadEnv (α κ : Type) where
  abspathF : String → String
  decompress : String → Option String
  configFilters : List (α → Option α)
  readerEntries : String → List α
  readFuncEffect : String → String → GState α κ → GState α κ

/-- `Glossary.read`.  The direct-mode guard comes first (only `abspath`
precedes it); the body then rebuilds the entry filters, decompresses
archive-suffixed input, detects the format from the extension when no
format is given (last matching `formatsExt` entry wins), validates option
keys, derives `_filename`, defaults the `name` info key to the basename
of the input, attaches a reader (direct) or drains one (indirect, also the
fallback when the plugin has no `Reader` class), and finally rebuilds the
iteration. -/
def readG (wordKey : α → κ) (reg : Registry α κ) (env : ReadEnv α κ)
    (g : GState α κ) (filename format : String) (direct : Bool)
    (progressbar : Bool) (options : List String) :
    Except PyErr Bool × GState α κ :=
  let filename := env.abspathF filename
  if ¬ g.readers.isEmpty ∧ ¬ direct then (.error .stateErr, g)
  else
    let g := { g with entryFilters := env.configFilters }
    let ext := get_ext filename
    let step :=
      if ext = ".gz" ∨ ext = ".bz2" ∨ ext = ".zip" then
        match env.decompress filename with
        | none => none
        | some fn2 => some (fn2, get_ext fn2)
      else some (filename, ext)
    match step with
    | none => (.ok false, g)
    | some (filename, ext) =>
      let format :=
        if format = "" then
          reg.formatsExt.foldl
            (fun acc p => if ext ∈ p.2 then p.1 else acc) ""
        else format
      if format = "" then (.ok false, g)
      else
        match reg.plugins.lookup format with
        | none => (.error .keyErr, g)
        | some plugin =>
          match plugin.readOptions with
          | none => (.error .keyErr, g)
          | some validKeys =>
            let _options := options.filter (· ∈ validKeys)
            match reg.formatsExt.lookup format with
            | none => (.error .keyErr, g)
            | some extList =>
              let pair := splitext filename
              let fnNoExt :=
                if strLower pair.2 ∈ extList then pair.1 else filename
              let g := { g with filename := fnNoExt, progressbar := progressbar }
              let g :=
                if getInfo g.info "name" = "" then
                  { g with info := setInfo g.info "name" (basename filename) }
                else g
              let g :=
                if plugin.hasReaderClass then
                  if direct then
                    { g with readers := g.readers ++ [env.readerEntries filename] }
                  else g.loadReader (env.readerEntries filename)
                else env.readFuncEffect format filename g
              (.ok true, g.updateIter wordKey false)

/-- Outcome of `Glossary.write`: either an exception escaped the call, or
it returned (`path = none` is failure).  `consumed` is the entry sequence
the plugin writer iterated, `none` when the writer stage was never
reached. -/
inductive WriteOutcome (α κ : Type)
  | raised (e : PyErr) (g : GState α κ)
  | returned (path : Option String) (g : GState α κ) (consumed : Option (List α))

/-- The sort decision and implicit drain of `Glossary.write` (lines
899-927): `ALWAYS` forces sort on (warning if the caller said `False`) and
drains any attached readers first; `DEFAULT_YES`/`DEFAULT_NO` fill in an
unspecified caller value; `NEVER` forces sort off (warning if the caller
said `True`). -/
def resolveSortAndDrain (policy : SortOnWrite) (sort : Option Bool)
    (g : GState α κ) : GState α κ × Bool :=
  match policy with
  | .always => (if g.readers.isEmpty then g else g.inactivateDirectMode, true)
  | .defaultYes => (g, sort.getD true)
  | .defaultNo => (g, sort.getD false)
  | .never => (g, false)

/-- The sort-key choice of `Glossary.write` when sorting: a missing caller
key falls back to the plugin key; under `ALWAYS` a plugin key overrides
even a caller-supplied key. -/
def resolveWriteSortKey (policy : SortOnWrite) (pluginKey : Option (α → κ))
    (sortKey : Option (α → κ)) : Option (α → κ) :=
  match sortKey with
  | none => pluginKey
  | some u =>
    if policy = .always then
      match pluginKey with
      | some pk => some pk
      | none => some u
    else some u

/-- `Glossary.write`.  The target is assumed not to be a directory (the
`isdir` branch only rewrites the filename).  An unregistered format name
makes `loadPluginByFormat` raise `KeyError`; a registered format without
write support returns `None` early; otherwise invalid option keys are
dropped, the sort decision and implicit drain are applied, the iteration
is rebuilt (sorted or not), and the plugin writer runs with `clear()` in a
`finally` block — `writerRaises` abstracts the writer raising. -/
def writeG (wordKey : α → κ) (reg : Registry α κ) (writerRaises : Bool)
    (abspathF : String → String) (g : GState α κ)
    (filename format : String) (sort : Option Bool)
    (sortKey : Option (α → κ)) (sortCacheSize : Int)
    (options : List String) : WriteOutcome α κ :=
  match reg.plugins.lookup format with
  | none => .raised .keyErr g
  | some plugin =>
    match plugin.writeOptions with
    | none => .returned none g none
    | some validKeys =>
      let _options := options.filter (· ∈ validKeys)
      let pair := resolveSortAndDrain plugin.sortOnWrite sort g
      let g2 :=
        if pair.2 then
          pair.1.sortWords wordKey
            (resolveWriteSortKey plugin.sortOnWrite plugin.sortKey sortKey)
            sortCacheSize
        else pair.1.updateIter wordKey false
      let path := abspathF filename
      if writerRaises then .returned none g2.clear (some g2.iterate)
      else .returned (some path) g2.clear (some g2.iterate)

/-! ### Output detection (`Glossary._detectOutput`) and `convert` -/

/-- First loop of `_detectOutput` (lines 811-818): compares the current
`format`, which is the empty string on this path, against each extension
token; it can only fire on degenerate registry entries such as `"."`. -/
def detectLoop1 : List (String × List String) → Option (String × String)
  | [] => none
  | (fmt, extList) :: rest =>
    match extList.find? (fun e => "" = e.drop 1 ∨ "" = e) with
    | some e => some (fmt, e)
    | none => detectLoop1 rest

/-- Second loop of `_detectOutput` (lines 819-833): a filename equal to a
format name, or to an extension token with or without its dot, selects
that format, and the output filename is rebuilt from `self._filename`
plus the chosen extension. -/
def detectLoop2 (selfFilename filename : String) :
    List (String × List String) → Option (String × String)
  | [] => none
  | (fmt, extList) :: rest =>
    if filename = fmt then some (filename, selfFilename ++ extList.headD "")
    else
      match extList.find? (fun e => filename = e.drop 1 ∨ filename = e) with
      | some e => some (fmt, selfFilename ++ e)
      | none => detectLoop2 selfFilename filename rest

/-- Third loop of `_detectOutput` (lines 834-838): extension lookup, with
no `break`, so the last matching registry entry wins; the filename is kept
as given. -/
def detectLoop3 (fext : String) (l : List (String × List String)) :
    Option String :=
  l.foldl (fun acc p => if fext ∈ p.2 then some p.1 else acc) none

/-- The archive-suffix strip at the top of `_detectOutput`: returns
`(archiveType, filename, fext)`. -/
def stripArchive (filename : String) : String × String × String :=
  let pair := splitext filename
  let fext0 := strLower pair.2
  if fext0 = ".gz" ∨ fext0 = ".bz2" ∨ fext0 = ".zip" then
    (fext0.drop 1, pair.1, get_ext pair.1)
  else ("", filename, fext0)

/-- `Glossary._detectOutput`: returns `(filename, format, archiveType)` or
`none`.  With a filename: the archive suffix is stripped first; an
explicitly given format is accepted as is; otherwise the three loops run
in order.  Without a filename: a format plus a previously stored
`self._filename` are required, and the extension list supplies the
suffix. -/
def detectOutput (reg : Registry α κ) (selfFilename : String)
    (filename format : String) : Option (String × String × String) :=
  if filename ≠ "" then
    let stripped := stripArchive filename
    let archiveType := stripped.1
    let filename := stripped.2.1
    let fext := stripped.2.2
    if format = "" then
      match detectLoop1 reg.formatsExt with
      | some p1 => some (filename, p1.1, archiveType)
      | none =>
        match detectLoop2 selfFilename filename reg.formatsExt with
        | some p2 => some (p2.2, p2.1, archiveType)
        | none =>
          match detectLoop3 fext reg.formatsExt with
          | some fmt => some (filename, fmt, archiveType)
          | none => none
    else some (filename, format, archiveType)
  else
    if selfFilename = "" then none
    else if format = "" then none
    else
      match reg.formatsExt.lookup format with
      | some extList => some (selfFilename ++ extList.headD "", format, "")
      | none => none

/-- The output-format resolution as the claim words it, for comparison
with `detectOutput` from the code: explicit format first, then extension
lookup, then filename-equals-token, else failure. -/
def detectOutputClaim (reg : Registry α κ) (selfFilename : String)
    (filename format : String) : Option (String × String × String) :=
  if filename ≠ "" then
    let stripped := stripArchive filename
    let archiveType := stripped.1
    let filename := stripped.2.1
    let fext := stripped.2.2
    if format = "" then
      match detectLoop3 fext reg.formatsExt with
      | some fmt => some (filename, fmt, archiveType)
      | none =>
        match detectLoop2 selfFilename filename reg.formatsExt with
        | some p2 => some (p2.2, p2.1, archiveType)
        | none => none
    else some (filename, format, archiveType)
  else
    if selfFilename = "" then none
    else if format = "" then none
    else
      match reg.formatsExt.lookup format with
      | some extList => some (selfFilename ++ extList.headD "", format, "")
      | none => none

/-- `Glossary.convert`: detect the output target (failing before any read
or write); choose direct mode automatically (direct unless sorting was
explicitly requested); `read`, then `write`; on success apply the archive
step (`archiver` abstracts `archiveOutDir`) and report the final path.
Exceptions from `read`/`write` propagate. -/
def convertG (wordKey : α → κ) (reg : Registry α κ) (env : ReadEnv α κ)
    (writerRaises : Bool) (abspathF : String → String)
    (archiver : String → String → String) (g : GState α κ)
    (inputFilename inputFormat : String) (direct? : Option Bool)
    (progressbar : Bool) (outputFilename outputFormat : String)
    (sort : Option Bool) (sortKey : Option (α → κ)) (sortCacheSize : Int)
    (readOptions writeOptions : List String) :
    Except PyErr (Option String) × GState α κ :=
  match detectOutput reg g.filename outputFilename outputFormat with
  | none => (.ok none, g)
  | some out =>
    let outFn := out.1
    let outFmt := out.2.1
    let archiveType := out.2.2
    let direct :=
      match direct? with
      | some d => d
      | none => if sort ≠ some true then true else false
    match readG wordKey reg env g inputFilename inputFormat direct
        progressbar readOptions with
    | (.error e, g1) => (.error e, g1)
    | (.ok false, g1) => (.ok none, g1)
    | (.ok true, g1) =>
      match writeG wordKey reg writerRaises abspathF g1 outFn outFmt sort
          sortKey sortCacheSize writeOptions with
      | .raised e g2 => (.error e, g2)
      | .returned none g2 _ => (.ok none, g2)
      | .returned (some path) g2 _ =>
        let final := if archiveType ≠ "" then archiver path archiveType else path
        (.ok (some final), g2)

/-! ### Supporting lemmas -/

/-- The filter-chain generator is a `filterMap`: falsy elements and entries
some stage discards are dropped, surviving (possibly rewritten) entries
are emitted exactly once, in upstream order. -/
theorem applyEntryFiltersGen_eq_filterMap (filters : List (α → Option α)) :
    ∀ gen : List (Option α),
      applyEntryFiltersGen filters gen =
        gen.filterMap (fun oe => oe.bind (runEntryFilters filters))
  | [] => rfl
  | none :: gen => by
    rw [applyEntryFiltersGen, List.filterMap_cons]
    simp [applyEntryFiltersGen_eq_filterMap filters gen]
  | some e :: gen => by
    rw [applyEntryFiltersGen, List.filterMap_cons]
    cases h : runEntryFilters filters e <;>
      simp [h, applyEntryFiltersGen_eq_filterMap filters gen]

/-- An empty filter chain over a stream with no falsy elements is the
identity. -/
theorem applyEntryFiltersGen_nil_map_some :
    ∀ l : List α, applyEntryFiltersGen [] (l.map some) = l
  | [] => rfl
  | a :: l => by
    rw [List.map_cons, applyEntryFiltersGen, runEntryFilters,
      applyEntryFiltersGen_nil_map_some l]

/-- Reading back the key just assigned in an ordered dictionary. -/
theorem odictGet_odictSet :
    ∀ (d : List (String × String)) (k v : String),
      odictGet (odictSet d k v) k = v
  | [], k, v => by simp [odictSet, odictGet, List.lookup]
  | (k0, v0) :: rest, k, v => by
    by_cases h : k0 = k
    · subst h
      simp [odictSet, odictGet, List.lookup]
    · have hne : (k == k0) = false := by
        simp only [beq_eq_false_iff_ne, ne_eq]
        exact fun hh => h hh.symm
      simp only [odictSet, if_neg h, odictGet, List.lookup, hne]
      exact odictGet_odictSet rest k v

/-- Behaviour of `write` once the format is registered and has write
support: the writer stage is reached, the sort decision and implicit drain
are applied, and the state is cleared in the `finally` block. -/
theorem writeG_eq {reg : Registry α κ} {format : String} {plugin : Plugin α κ}
    {vk : List String} (wordKey : α → κ) (writerRaises : Bool)
    (abspathF : String → String) (g : GState α κ) (filename : String)
    (sort : Option Bool) (sortKey : Option (α → κ)) (cs : Int)
    (opts : List String)
    (hlook : reg.plugins.lookup format = some plugin)
    (hvk : plugin.writeOptions = some vk) :
    writeG wordKey reg writerRaises abspathF g filename format sort sortKey
        cs opts =
      WriteOutcome.returned
        (if writerRaises then none else some (abspathF filename))
        (initGState α κ)
        (some (GState.iterate
          (if (resolveSortAndDrain plugin.sortOnWrite sort g).2 then
            ((resolveSortAndDrain plugin.sortOnWrite sort g).1).sortWords
              wordKey
              (resolveWriteSortKey plugin.sortOnWrite plugin.sortKey sortKey)
              cs
          else
            ((resolveSortAndDrain plugin.sortOnWrite sort g).1).updateIter
              wordKey false))) := by
  simp only [writeG, hlook, hvk]
  cases writerRaises <;> simp [GState.clear]

/-! ### The claims -/

/-- C1: for any entries distributed across attached streaming readers, any
key function and any cache size `C ≥ 1`, the sorted iteration built by
`sortWords` / `_updateIter(sort=True)` in direct mode is sorted by the key
function, is a permutation of the union of the reader entries, and is
the same for every choice of `C`. -/
theorem sortMergeClaim1 (wordKey key : α → κ) (C : Int) (g : GState α κ)
    (hC : 1 ≤ C) (hreaders : ¬ g.readers.isEmpty = true)
    (hfilters : g.entryFilters = []) :
    ∃ out : List α,
      (g.sortWords wordKey (some key) C).iter = some out ∧
      out.Sorted (fun a b => key a ≤ key b) ∧
      out.Perm g.readers.flatten ∧
      (∀ C2 : Int, 1 ≤ C2 →
        (g.sortWords wordKey (some key) C2).iter = some out) := by
  have hre : g.readers.isEmpty = false := by
    revert hreaders
    cases g.readers.isEmpty <;> simp
  have hiter : ∀ cs : Int,
      (g.sortWords wordKey (some key) cs).iter =
        some (hsortStreamList g.readers
          ((if cs > 0 then cs else g.sortCacheSize).toNat) key) := by
    intro cs
    simp [GState.sortWords, GState.updateIter, hre, hfilters,
      getEntrySortKey, applyEntryFiltersGen_nil_map_some]
  refine ⟨_, hiter C, hsortStreamList_sorted _ _ _,
    hsortStreamList_perm _ _ _, fun C2 _ => ?_⟩
  rw [hiter C2, hsortStreamList_cache_irrelevant g.readers _
    ((if C > 0 then C else g.sortCacheSize).toNat) key]

/-- C1 witness: two streaming readers, key `n % 3`, cache size 2. -/
theorem sortMergeClaim1Witness :
    ∃ out : List Nat,
      (GState.sortWords (fun n : Nat => n) (some (fun n : Nat => n % 3)) 2
        { initGState Nat Nat with readers := [[5, 1, 4], [3, 2]] }).iter =
          some out ∧
      out.Sorted (fun a b : Nat =>
        (fun n : Nat => n % 3) a ≤ (fun n : Nat => n % 3) b) ∧
      out.Perm
        ({ initGState Nat Nat with
            readers := [[5, 1, 4], [3, 2]] } : GState Nat Nat).readers.flatten ∧
      (∀ C2 : Int, 1 ≤ C2 →
        (GState.sortWords (fun n : Nat => n) (some (fun n : Nat => n % 3)) C2
          { initGState Nat Nat with readers := [[5, 1, 4], [3, 2]] }).iter =
            some out) :=
  sortMergeClaim1 (fun n => n) (fun n => n % 3) 2
    { initGState Nat Nat with readers := [[5, 1, 4], [3, 2]] }
    (by decide) (by decide) rfl

/-- C2: `read(direct=False)` on a glossary with attached readers raises the
illegal-mode-transition error (a `ValueError`, named `StateError` in the spec) and
leaves the whole state — in particular the materialized list and the
attached readers — unchanged; the indirect read is never merged in. -/
theorem modeClaim2 (wordKey : α → κ) (reg : Registry α κ)
    (env : ReadEnv α κ) (g : GState α κ) (filename format : String)
    (progressbar : Bool) (options : List String)
    (h : ¬ g.readers.isEmpty = true) :
    readG wordKey reg env g filename format false progressbar options =
      (.error .stateErr, g) := by
  have hre : g.readers.isEmpty = false := by
    revert h
    cases g.readers.isEmpty <;> simp
  simp [readG, hre]

/-- C2 witness: one attached reader, indirect read request. -/
theorem modeClaim2Witness :
    readG (fun n : Nat => n) (⟨[], []⟩ : Registry Nat Nat)
      ⟨fun s => s, fun _ => none, [], fun _ => [], fun _ _ g => g⟩
      { initGState Nat Nat with readers := [[7]] }
      "in.txt" "" false true [] =
      (.error .stateErr, { initGState Nat Nat with readers := [[7]] }) :=
  modeClaim2 (fun n => n) ⟨[], []⟩
    ⟨fun s => s, fun _ => none, [], fun _ => [], fun _ _ g => g⟩
    { initGState Nat Nat with readers := [[7]] } "in.txt" "" true []
    (by decide)

/-- C5: in direct mode, `sortWords` with a non-positive cache size keeps
the configured cache size, still stores the new sort key, still rebuilds
the sorted iteration (with the previously configured cache size), raises
no error, and only a positive cache size replaces the configured value. -/
theorem cacheClaim5 (wordKey : α → κ) (key : Option (α → κ)) (C : Int)
    (g : GState α κ) (hreaders : ¬ g.readers.isEmpty = true) (hC : C ≤ 0) :
    (g.sortWords wordKey key C).sortCacheSize = g.sortCacheSize ∧
    (g.sortWords wordKey key C).sortKey = key ∧
    (g.sortWords wordKey key C).iter =
      some (applyEntryFiltersGen g.entryFilters
        ((hsortStreamList g.readers g.sortCacheSize.toNat
          (getEntrySortKey wordKey key)).map some)) ∧
    (∀ C2 : Int, 0 < C2 →
      (g.sortWords wordKey key C2).sortCacheSize = C2) := by
  have hre : g.readers.isEmpty = false := by
    revert hreaders
    cases g.readers.isEmpty <;> simp
  have hCle : ¬ C > 0 := by omega
  refine ⟨?_, ?_, ?_, fun C2 h2 => ?_⟩
  · simp [GState.sortWords, GState.updateIter, hre, hCle]
  · simp [GState.sortWords, GState.updateIter, hre, hCle]
  · simp [GState.sortWords, GState.updateIter, hre, hCle]
  · simp [GState.sortWords, GState.updateIter, hre, h2]

/-- C5 witness: cache size 0 on a direct glossary configured at 1000. -/
theorem cacheClaim5Witness :
    ((GState.sortWords (fun n : Nat => n) none 0
        { initGState Nat Nat with readers := [[2, 1]] }).sortCacheSize =
      ({ initGState Nat Nat with readers := [[2, 1]] } : GState Nat Nat).sortCacheSize) ∧
    ((GState.sortWords (fun n : Nat => n) none 0
        { initGState Nat Nat with readers := [[2, 1]] }).sortKey = none) ∧
    ((GState.sortWords (fun n : Nat => n) none 0
        { initGState Nat Nat with readers := [[2, 1]] }).iter =
      some (applyEntryFiltersGen
        ({ initGState Nat Nat with readers := [[2, 1]] } : GState Nat Nat).entryFilters
        ((hsortStreamList
          ({ initGState Nat Nat with readers := [[2, 1]] } : GState Nat Nat).readers
          ({ initGState Nat Nat with readers := [[2, 1]] } : GState Nat Nat).sortCacheSize.toNat
          (getEntrySortKey (fun n : Nat => n) none)).map some))) ∧
    (∀ C2 : Int, 0 < C2 →
      (GState.sortWords (fun n : Nat => n) none C2
        { initGState Nat Nat with readers := [[2, 1]] }).sortCacheSize = C2) :=
  cacheClaim5 (fun n => n) none 0
    { initGState Nat Nat with readers := [[2, 1]] } (by decide) (by decide)

/-- C10: a glossary on which no read has been performed since construction
or since the last `clear` has no iterator built; iterating it raises
nothing and yields the empty sequence (the error is only logged). -/
theorem iterClaim10 (g g2 : GState α κ) (h : g.iter = none) :
    g.iterate = [] ∧ (initGState α κ).iter = none ∧ g2.clear.iter = none := by
  refine ⟨?_, rfl, rfl⟩
  rw [GState.iterate, h]

/-- C10 witness: a freshly constructed glossary. -/
theorem iterClaim10Witness :
    (initGState Nat Nat).iterate = [] ∧ (initGState Nat Nat).iter = none ∧
    (GState.clear { initGState Nat Nat with data := [3] }).iter = none :=
  iterClaim10 (initGState Nat Nat) { initGState Nat Nat with data := [3] } rfl

/-- C3: the effective sort decision of `write` follows the sort-on-write
policy of the output format — `always` forces sorting for every caller value and,
with readers attached, drains every reader into the materialized list
before the writer runs; `never` forces sorting off; `default-on` and
`default-off` only fill in an unspecified caller value. -/
theorem writePolicyClaim3 (g : GState α κ) (s : Option Bool) (b : Bool)
    (wordKey : α → κ) (reg : Registry α κ) (writerRaises : Bool)
    (abspathF : String → String) (fn fmt : String) (skey : Option (α → κ))
    (cs : Int) (opts : List String) (plugin : Plugin α κ) (vk : List String)
    (hlook : reg.plugins.lookup fmt = some plugin)
    (hvk : plugin.writeOptions = some vk)
    (halways : plugin.sortOnWrite = .always)
    (hreaders : ¬ g.readers.isEmpty = true) :
    ((resolveSortAndDrain .always (some b) g).2 = true ∧
     (resolveSortAndDrain .never (some b) g).2 = false ∧
     (resolveSortAndDrain .defaultYes none g).2 = true ∧
     (resolveSortAndDrain .defaultYes (some b) g).2 = b ∧
     (resolveSortAndDrain .defaultNo none g).2 = false ∧
     (resolveSortAndDrain .defaultNo (some b) g).2 = b ∧
     (resolveSortAndDrain .defaultYes s g).1 = g ∧
     (resolveSortAndDrain .defaultNo s g).1 = g ∧
     (resolveSortAndDrain .never s g).1 = g) ∧
    ((resolveSortAndDrain .always s g).1 =
      { g with data := g.data ++ g.readers.flatten, readers := [] }) ∧
    (writeG wordKey reg writerRaises abspathF g fn fmt s skey cs opts =
      WriteOutcome.returned
        (if writerRaises then none else some (abspathF fn))
        (initGState α κ)
        (some (GState.iterate
          (GState.sortWords wordKey
            (resolveWriteSortKey .always plugin.sortKey skey) cs
            ({ g with
                data := g.data ++ g.readers.flatten
                readers := [] }))))) := by
  have hre : g.readers.isEmpty = false := by
    revert hreaders
    cases g.readers.isEmpty <;> simp
  refine ⟨?_, ?_, ?_⟩
  · cases s <;> simp [resolveSortAndDrain]
  · simp [resolveSortAndDrain, hre, inactivateDirectMode_eq]
  · rw [writeG_eq wordKey writerRaises abspathF g fn s skey cs opts hlook hvk]
    simp [halways, resolveSortAndDrain, hre, inactivateDirectMode_eq]

/-- C3 witness: an `always` format, caller sort left unspecified, one
attached reader. -/
theorem writePolicyClaim3Witness :
    (((resolveSortAndDrain .always (some false)
        ({ initGState Nat Nat with readers := [[2, 1]] } : GState Nat Nat)).2 = true ∧
      (resolveSortAndDrain .never (some false)
        ({ initGState Nat Nat with readers := [[2, 1]] } : GState Nat Nat)).2 = false ∧
      (resolveSortAndDrain .defaultYes none
        ({ initGState Nat Nat with readers := [[2, 1]] } : GState Nat Nat)).2 = true ∧
      (resolveSortAndDrain .defaultYes (some false)
        ({ initGState Nat Nat with readers := [[2, 1]] } : GState Nat Nat)).2 = false ∧
      (resolveSortAndDrain .defaultNo none
        ({ initGState Nat Nat with readers := [[2, 1]] } : GState Nat Nat)).2 = false ∧
      (resolveSortAndDrain .defaultNo (some false)
        ({ initGState Nat Nat with readers := [[2, 1]] } : GState Nat Nat)).2 = false ∧
      (resolveSortAndDrain .defaultYes none
        ({ initGState Nat Nat with readers := [[2, 1]] } : GState Nat Nat)).1 =
          { initGState Nat Nat with readers := [[2, 1]] } ∧
      (resolveSortAndDrain .defaultNo none
        ({ initGState Nat Nat with readers := [[2, 1]] } : GState Nat Nat)).1 =
          { initGState Nat Nat with readers := [[2, 1]] } ∧
      (resolveSortAndDrain .never none
        ({ initGState Nat Nat with readers := [[2, 1]] } : GState Nat Nat)).1 =
          { initGState Nat Nat with readers := [[2, 1]] }) ∧
     ((resolveSortAndDrain .always none
        ({ initGState Nat Nat with readers := [[2, 1]] } : GState Nat Nat)).1 =
          { initGState Nat Nat with data := [2, 1], readers := [] }) ∧
     (writeG (fun n : Nat => n)
        (⟨[("T", [".t"])],
          [("T", ⟨SortOnWrite.always, none, none, some [], false⟩)]⟩ :
            Registry Nat Nat)
        false (fun s => s)
        { initGState Nat Nat with readers := [[2, 1]] } "o.txt" "T"
        none none 1000 [] =
      WriteOutcome.returned (some "o.txt") (initGState Nat Nat)
        (some (GState.iterate
          (GState.sortWords (fun n : Nat => n)
            (resolveWriteSortKey .always none none) 1000
            ({ initGState Nat Nat with data := [2, 1], readers := [] })))))) :=
  writePolicyClaim3
    { initGState Nat Nat with readers := [[2, 1]] } none false
    (fun n => n)
    ⟨[("T", [".t"])], [("T", ⟨SortOnWrite.always, none, none, some [], false⟩)]⟩
    false (fun s => s) "o.txt" "T" none 1000 []
    ⟨SortOnWrite.always, none, none, some [], false⟩ []
    rfl rfl rfl (by decide)

/-- C4: every `write` call that reaches the writer stage clears the
glossary state afterwards regardless of outcome — the materialized list is
emptied, readers are closed and detached, the iteration is reset — and
returns the path on success, a `None` result when the writer raised. -/
theorem writeClearClaim4 (wordKey : α → κ) (reg : Registry α κ)
    (abspathF : String → String) (g : GState α κ) (fn fmt : String)
    (s : Option Bool) (skey : Option (α → κ)) (cs : Int)
    (opts : List String) (plugin : Plugin α κ) (vk : List String)
    (hlook : reg.plugins.lookup fmt = some plugin)
    (hvk : plugin.writeOptions = some vk) :
    ∃ consumed : List α,
      (writeG wordKey reg false abspathF g fn fmt s skey cs opts =
        .returned (some (abspathF fn)) (initGState α κ) (some consumed)) ∧
      (writeG wordKey reg true abspathF g fn fmt s skey cs opts =
        .returned none (initGState α κ) (some consumed)) ∧
      (initGState α κ).data = [] ∧ (initGState α κ).readers = [] ∧
      (initGState α κ).iter = none := by
  have h0 := writeG_eq wordKey false abspathF g fn s skey cs opts
    hlook hvk
  have h1 := writeG_eq wordKey true abspathF g fn s skey cs opts
    hlook hvk
  simp only [if_true, if_false, Bool.false_eq_true, Bool.true_eq_false,
    ite_true, ite_false] at h0 h1
  exact ⟨_, h0, h1, rfl, rfl, rfl⟩

/-- C4 witness: a registered writable format, both writer outcomes. -/
theorem writeClearClaim4Witness :
    ∃ consumed : List Nat,
      (writeG (fun n : Nat => n)
        (⟨[("T", [".t"])],
          [("T", ⟨SortOnWrite.defaultNo, none, none, some [], false⟩)]⟩ :
            Registry Nat Nat)
        false (fun s => s)
        { initGState Nat Nat with data := [2, 1] } "o.txt" "T"
        none none 1000 [] =
        .returned (some "o.txt") (initGState Nat Nat) (some consumed)) ∧
      (writeG (fun n : Nat => n)
        (⟨[("T", [".t"])],
          [("T", ⟨SortOnWrite.defaultNo, none, none, some [], false⟩)]⟩ :
            Registry Nat Nat)
        true (fun s => s)
        { initGState Nat Nat with data := [2, 1] } "o.txt" "T"
        none none 1000 [] =
        .returned none (initGState Nat Nat) (some consumed)) ∧
      (initGState Nat Nat).data = [] ∧ (initGState Nat Nat).readers = [] ∧
      (initGState Nat Nat).iter = none :=
  writeClearClaim4 (fun n => n)
    ⟨[("T", [".t"])], [("T", ⟨SortOnWrite.defaultNo, none, none, some [], false⟩)]⟩
    (fun s => s) { initGState Nat Nat with data := [2, 1] } "o.txt" "T"
    none none 1000 [] ⟨SortOnWrite.defaultNo, none, none, some [], false⟩ []
    rfl rfl

/-- C6 counterexample: `write` with a format name absent from the registry
raises `KeyError` out of `loadPluginByFormat` (the unguarded
`formatsFilename[format]` lookup), instead of returning `None` as the
claim states for every failure. -/
theorem writeBoundaryClaim6Cex :
    writeG (fun n : Nat => n) (⟨[], []⟩ : Registry Nat Nat) false
      (fun s => s) (initGState Nat Nat) "out.txt" "BogusFormat"
      none none 1000 [] =
      WriteOutcome.raised PyErr.keyErr (initGState Nat Nat) := rfl

/-- C6 amended: for output formats present in the registry, `write` never
raises — it returns the absolute final path exactly when the format has
write support and the writer does not raise, and `None` on every such
failure; an unregistered format name instead raises `KeyError`. -/
theorem writeBoundaryClaim6Amended (wordKey : α → κ) (reg : Registry α κ)
    (writerRaises : Bool) (abspathF : String → String) (g : GState α κ)
    (fn fmt : String) (s : Option Bool) (skey : Option (α → κ)) (cs : Int)
    (opts : List String) (plugin : Plugin α κ)
    (hlook : reg.plugins.lookup fmt = some plugin) :
    ∃ (r : Option String) (gf : GState α κ) (c : Option (List α)),
      writeG wordKey reg writerRaises abspathF g fn fmt s skey cs opts =
        .returned r gf c ∧
      (r = some (abspathF fn) ↔
        plugin.writeOptions.isSome = true ∧ writerRaises = false) := by
  cases hvo : plugin.writeOptions with
  | none =>
    refine ⟨none, g, none, ?_, ?_⟩
    · simp [writeG, hlook, hvo]
    · simp [hvo]
  | some vk =>
    rw [writeG_eq wordKey writerRaises abspathF g fn s skey cs opts hlook hvo]
    refine ⟨_, _, _, rfl, ?_⟩
    cases writerRaises <;> simp [hvo]

/-- C6 witness for the amended claim: a registered writable format with a
non-raising writer. -/
theorem writeBoundaryClaim6Witness :
    ∃ (r : Option String) (gf : GState Nat Nat) (c : Option (List Nat)),
      writeG (fun n : Nat => n)
        (⟨[("T", [".t"])],
          [("T", ⟨SortOnWrite.defaultNo, none, none, some [], false⟩)]⟩ :
            Registry Nat Nat)
        false (fun s => s) (initGState Nat Nat) "o.txt" "T"
        none none 1000 [] = .returned r gf c ∧
      (r = some "o.txt" ↔
        (Option.isSome (some ([] : List String)) = true ∧ false = false)) :=
  writeBoundaryClaim6Amended (fun n => n)
    ⟨[("T", [".t"])], [("T", ⟨SortOnWrite.defaultNo, none, none, some [], false⟩)]⟩
    false (fun s => s) (initGState Nat Nat) "o.txt" "T" none none 1000 []
    ⟨SortOnWrite.defaultNo, none, none, some [], false⟩ rfl

/-- C7 counterexample: `setInfo` does not store under the alias-normalized
LOWERCASED key, as the claim states: for the key `"Author"` (lowercased
`"author"`, not in the alias table) the code stores under the original
`"Author"`, so a later `getInfo "author"` — which under the storage rule of the claim
 would return the value — returns the empty default. -/
theorem infoClaim7Cex :
    setInfo [] "Author" "v" = [("Author", "v")] ∧
    claimInfoStoreKey "Author" = "author" ∧
    getInfo (setInfo [] "Author" "v") "author" = "" := by decide

/-- C7 amended: `setInfo` stores under the alias-table image of the
lowercased key when the lowercased key is an alias, and under the original
key unchanged otherwise (`normInfoKey`); for any two keys with the same
normalized canonical key — in particular the table aliases `title`,
`bookname`, `dbname` of `name` — `setInfo(a1, v)` followed by
`getInfo(a2)` returns `v`. -/
theorem infoClaim7Amended (info : List (String × String)) (a1 a2 v : String)
    (h : normInfoKey a1 = normInfoKey a2) :
    setInfo info a1 v = odictSet info (normInfoKey a1) v ∧
    getInfo (setInfo info a1 v) a2 = v := by
  refine ⟨rfl, ?_⟩
  show odictGet (odictSet info (normInfoKey a1) v) (normInfoKey a2) = v
  rw [← h]
  exact odictGet_odictSet info (normInfoKey a1) v

/-- C7 witness: `title` and `bookname` are aliases of `name`. -/
theorem infoClaim7Witness :
    setInfo [] "title" "MyDict" = odictSet [] (normInfoKey "title") "MyDict" ∧
    getInfo (setInfo [] "title" "MyDict") "bookname" = "MyDict" :=
  infoClaim7Amended [] "title" "bookname" "MyDict" (by decide)

/-- C8: the filter generator discards falsy upstream elements before stage
1; an entry runs through the stages in order, the rewritten
result of each stage feeding the next; a discarding stage drops the entry with no later
stage consulted; and the whole generator is a `filterMap`, so entries that
survive every stage are emitted exactly once, in upstream order. -/
theorem filterClaim8 (filters fs : List (α → Option α)) (f : α → Option α)
    (gen : List (Option α)) (e : α) :
    (applyEntryFiltersGen filters (none :: gen) =
      applyEntryFiltersGen filters gen) ∧
    (runEntryFilters ([] : List (α → Option α)) e = some e) ∧
    (f e = none → runEntryFilters (f :: fs) e = none) ∧
    (∀ e2, f e = some e2 →
      runEntryFilters (f :: fs) e = runEntryFilters fs e2) ∧
    (applyEntryFiltersGen filters gen =
      gen.filterMap (fun oe => oe.bind (runEntryFilters filters))) := by
  refine ⟨rfl, rfl, ?_, ?_, applyEntryFiltersGen_eq_filterMap filters gen⟩
  · intro h
    simp [runEntryFilters, h]
  · intro e2 h
    simp [runEntryFilters, h]

/-- C8 witness: one rewriting-or-discarding stage over a stream with a
falsy element. -/
theorem filterClaim8Witness :
    (applyEntryFiltersGen [fun n : Nat => if n = 7 then none else some (n + 1)]
        (none :: [some 7, some 2]) =
      applyEntryFiltersGen [fun n : Nat => if n = 7 then none else some (n + 1)]
        [some 7, some 2]) ∧
    (runEntryFilters ([] : List (Nat → Option Nat)) 7 = some 7) ∧
    ((fun n : Nat => if n = 7 then none else some (n + 1)) 7 = none →
      runEntryFilters
        ((fun n : Nat => if n = 7 then none else some (n + 1)) :: []) 7 = none) ∧
    (∀ e2, (fun n : Nat => if n = 7 then none else some (n + 1)) 7 = some e2 →
      runEntryFilters
        ((fun n : Nat => if n = 7 then none else some (n + 1)) :: []) 7 =
        runEntryFilters [] e2) ∧
    (applyEntryFiltersGen [fun n : Nat => if n = 7 then none else some (n + 1)]
        [some 7, some 2] =
      List.filterMap
        (fun oe => oe.bind
          (runEntryFilters [fun n : Nat => if n = 7 then none else some (n + 1)]))
        [some 7, some 2]) :=
  filterClaim8 [fun n : Nat => if n = 7 then none else some (n + 1)] []
    (fun n : Nat => if n = 7 then none else some (n + 1)) [some 7, some 2] 7

/-- C9 counterexample: the claim puts extension lookup before the
filename-equals-token fallback, but the code checks the token match first.
With registry order `A ↦ [".b.c"]`, `B ↦ [".c"]` and output filename
`"b.c"`, `_detectOutput` picks `A` (token match, filename rebuilt from the
stored stem) while the precedence stated in the claim picks `B` (extension lookup,
filename kept). -/
theorem convertClaim9Cex :
    detectOutput (⟨[("A", [".b.c"]), ("B", [".c"])], []⟩ : Registry Nat Nat)
        "self" "b.c" "" = some ("self.b.c", "A", "") ∧
    detectOutputClaim
        (⟨[("A", [".b.c"]), ("B", [".c"])], []⟩ : Registry Nat Nat)
        "self" "b.c" "" = some ("b.c", "B", "") := by decide

/-- C9 amended: `convert` resolves the output format with this precedence:
an explicitly supplied format name wins unchecked; otherwise (after the
degenerate first loop, which can only fire on a bare-dot extension token)
a filename equal to a known format name or extension token selects that
format and the filename is rebuilt from the stored input stem; otherwise
the stripped extension is looked up (last matching registry entry wins);
if nothing matches, `convert` fails with `None` and performs no read and
no write (state unchanged, result independent of the reader and writer
environments). -/
theorem convertClaim9Amended (reg : Registry α κ) (sf filename format : String)
    (wordKey : α → κ) (env : ReadEnv α κ) (writerRaises : Bool)
    (abspathF : String → String) (archiver : String → String → String)
    (g : GState α κ) (ifn ifmt : String) (d? : Option Bool) (pb : Bool)
    (ofn ofmt : String) (s : Option Bool) (skey : Option (α → κ)) (cs : Int)
    (ro wo : List String) :
    (filename ≠ "" → format ≠ "" →
      detectOutput reg sf filename format =
        some ((stripArchive filename).2.1, format, (stripArchive filename).1)) ∧
    (filename ≠ "" → format = "" →
      detectLoop1 reg.formatsExt = none →
      (∀ p2, detectLoop2 sf (stripArchive filename).2.1 reg.formatsExt =
          some p2 →
        detectOutput reg sf filename format =
          some (p2.2, p2.1, (stripArchive filename).1)) ∧
      (detectLoop2 sf (stripArchive filename).2.1 reg.formatsExt = none →
        (∀ fmt3, detectLoop3 (stripArchive filename).2.2 reg.formatsExt =
            some fmt3 →
          detectOutput reg sf filename format =
            some ((stripArchive filename).2.1, fmt3, (stripArchive filename).1)) ∧
        (detectLoop3 (stripArchive filename).2.2 reg.formatsExt = none →
          detectOutput reg sf filename format = none))) ∧
    (detectOutput reg g.filename ofn ofmt = none →
      convertG wordKey reg env writerRaises abspathF archiver g ifn ifmt d?
        pb ofn ofmt s skey cs ro wo = (.ok none, g)) := by
  refine ⟨fun h1 h2 => ?_, fun h1 h2 h3 => ⟨fun p2 h4 => ?_, fun h4 => ⟨fun fmt3 h5 => ?_, fun h5 => ?_⟩⟩, fun hd => ?_⟩
  · simp [detectOutput, h1, h2]
  · simp [detectOutput, h1, h2, h3, h4]
  · simp [detectOutput, h1, h2, h3, h4, h5]
  · simp [detectOutput, h1, h2, h3, h4, h5]
  · simp [convertG, hd]

/-- C9 witness: a failing detection makes `convert` a no-op, an explicit
format wins, and a token match rebuilds the filename. -/
theorem convertClaim9Witness :
    (("x.unknownext" : String) ≠ "" → ("Fmt" : String) ≠ "" →
      detectOutput (⟨[("B", [".c"])], []⟩ : Registry Nat Nat) "self"
          "x.unknownext" "Fmt" =
        some ((stripArchive "x.unknownext").2.1, "Fmt",
          (stripArchive "x.unknownext").1)) ∧
    (("x.unknownext" : String) ≠ "" → ("Fmt" : String) = "" →
      detectLoop1 (⟨[("B", [".c"])], []⟩ : Registry Nat Nat).formatsExt = none →
      (∀ p2, detectLoop2 "self" (stripArchive "x.unknownext").2.1
          (⟨[("B", [".c"])], []⟩ : Registry Nat Nat).formatsExt = some p2 →
        detectOutput (⟨[("B", [".c"])], []⟩ : Registry Nat Nat) "self"
            "x.unknownext" "Fmt" =
          some (p2.2, p2.1, (stripArchive "x.unknownext").1)) ∧
      (detectLoop2 "self" (stripArchive "x.unknownext").2.1
          (⟨[("B", [".c"])], []⟩ : Registry Nat Nat).formatsExt = none →
        (∀ fmt3, detectLoop3 (stripArchive "x.unknownext").2.2
            (⟨[("B", [".c"])], []⟩ : Registry Nat Nat).formatsExt = some fmt3 →
          detectOutput (⟨[("B", [".c"])], []⟩ : Registry Nat Nat) "self"
              "x.unknownext" "Fmt" =
            some ((stripArchive "x.unknownext").2.1, fmt3,
              (stripArchive "x.unknownext").1)) ∧
        (detectLoop3 (stripArchive "x.unknownext").2.2
            (⟨[("B", [".c"])], []⟩ : Registry Nat Nat).formatsExt = none →
          detectOutput (⟨[("B", [".c"])], []⟩ : Registry Nat Nat) "self"
              "x.unknownext" "Fmt" = none))) ∧
    (detectOutput (⟨[("B", [".c"])], []⟩ : Registry Nat Nat)
        (initGState Nat Nat).filename "out.unknownext" "" = none →
      convertG (fun n : Nat => n) (⟨[("B", [".c"])], []⟩ : Registry Nat Nat)
        ⟨fun s => s, fun _ => none, [], fun _ => [], fun _ _ g => g⟩
        false (fun s => s) (fun p _ => p) (initGState Nat Nat)
        "in.c" "" none true "out.unknownext" "" none none 1000 [] [] =
        (.ok none, initGState Nat Nat)) :=
  convertClaim9Amended ⟨[("B", [".c"])], []⟩ "self" "x.unknownext" "Fmt"
    (fun n => n) ⟨fun s => s, fun _ => none, [], fun _ => [], fun _ _ g => g⟩
    false (fun s => s) (fun p _ => p) (initGState Nat Nat) "in.c" "" none
    true "out.unknownext" "" none none 1000 [] []

end PyGlossary
